import Mathlib

/-!
# Breathing halftone engine — verification of the specification claims

A shallow embedding of the breathing-halftone engine vendored in this
repository (`src/vendor/breathing-halftone.ts`, `src/vendor/particle.ts`,
`src/vendor/vector.ts`, and the class-based copy of the engine shipped as an
unnamed source file).  JavaScript numbers are modelled as exact rationals
where the code only uses field operations and rounding, and as real numbers
where the code takes square roots or cosines.  Impure inputs of a function
(the `Math.random()` draw, the sampled channel value, the wall-clock cosine)
become explicit parameters.  Fallible DOM operations return an error value.
-/

set_option autoImplicit false

namespace Halftone

/-! ## Channels

The engine samples one of four channels per particle grid. -/

inductive Channel where
  | red
  | green
  | blue
  | lum
deriving DecidableEq

/-! ## Vector2 (`src/vendor/vector.ts`)

`Vector` is a mutable pair in the source; here a value type.  `add`,
`subtract` and `scale` mirror the instance methods (and the static
`Vector.subtract` used by the engine), `magnitude` the getter
`sqrt(x*x + y*y)`. -/

structure Vec (R : Type) where
  x : R
  y : R
deriving DecidableEq

variable {R : Type} [Field R]

def Vec.add (a b : Vec R) : Vec R := ⟨a.x + b.x, a.y + b.y⟩

def Vec.subtract (a b : Vec R) : Vec R := ⟨a.x - b.x, a.y - b.y⟩

def Vec.scale (a : Vec R) (s : R) : Vec R := ⟨a.x * s, a.y * s⟩

noncomputable def Vec.magnitude (a : Vec ℝ) : ℝ := Real.sqrt (a.x * a.x + a.y * a.y)

/-! ## Channel sampling (`getPixelChannelValue`, `getPixelLum`)

The decoded image is the RGBA byte array `imgData` with pixel dimensions
`imgWidth × imgHeight`.  Reading past the end of a `Uint8ClampedArray` gives
`undefined` in JavaScript; `undefined / 255` is `NaN`, and the later
`value = value || 0` collapses `NaN` to `0`.  We therefore model a byte read
as `List.get?` and collapse a missing byte to `0` exactly where the source
applies `|| 0`.  The functions are polymorphic over an ordered field with a
floor so the same definitions can be evaluated exactly on `ℚ` and used
inside the real-valued grid builder. -/

section Sampler

variable {K : Type} [LinearOrderedField K] [FloorRing K]

/-- `Math.round`: round half toward positive infinity. -/
def jsRound (q : K) : ℤ := ⌊q + 1 / 2⌋

/-- Modelled from the spec: the per-channel byte-offset table `channelOffset`
is referenced by `getPixelChannelValue` but is not defined anywhere in this
repository (it belongs to the upstream library this file was vendored from).
Spec §4.2 — "for `Red|Green|Blue`: return `raw_channel_byte / 255`" — fixes
the RGBA layout red ↦ 0, green ↦ 1, blue ↦ 2.  The `lum` branch of
`getPixelChannelValue` never consults this table. -/
def channelOffset : Channel → ℕ
  | .red => 0
  | .green => 1
  | .blue => 2
  | .lum => 0

/-- `getPixelLum`: `(max(r,g,b) + min(r,g,b)) / 2` over the three normalized
bytes at `pixelIndex`.  `none` stands for the `NaN` produced when a byte read
falls outside the array (JS `Math.max`/`min` propagate `NaN`). -/
def getPixelLum (imgData : List ℕ) (pixelIndex : ℕ) : Option K :=
  match imgData.get? pixelIndex, imgData.get? (pixelIndex + 1),
      imgData.get? (pixelIndex + 2) with
  | some r, some g, some b =>
      some ((max (max ((r : K) / 255) ((g : K) / 255)) ((b : K) / 255)
        + min (min ((r : K) / 255) ((g : K) / 255)) ((b : K) / 255)) / 2)
  | _, _, _ => none

/-- `getPixelChannelValue(x, y, channel)`: map the surface coordinate to a
source pixel by `Math.round(x / imgScale)`, guard with
`x < 0 || x > w || y < 0 || y > h` (note: the closed rectangle), read the
channel byte (or the luminance), apply `value || 0`, and invert the value
when not additive. -/
def getPixelChannelValue (imgData : List ℕ) (imgWidth imgHeight : ℕ)
    (imgScale : K) (isAdditive : Bool) (x y : K) (channel : Channel) : K :=
  let xr : ℤ := jsRound (x / imgScale)
  let yr : ℤ := jsRound (y / imgScale)
  if xr < 0 ∨ (imgWidth : ℤ) < xr ∨ yr < 0 ∨ (imgHeight : ℤ) < yr then 0
  else
    let pixelIndex : ℕ := (xr.toNat + yr.toNat * imgWidth) * 4
    let value : K :=
      match channel with
      | .lum => (getPixelLum imgData pixelIndex).getD 0
      | c =>
        match imgData.get? (pixelIndex + channelOffset c) with
        | some b => (b : K) / 255
        | none => 0
    if isAdditive then value else 1 - value

end Sampler

/-! ## Particle (`src/vendor/particle.ts`)

The mutable particle object.  `Math.random()` appears in the constructor and
in the visibility gate of `update`; the channel sample and the wall-clock
cosine appear in `calculateSize`.  These impure inputs are passed as
explicit arguments (`randomDraw`, `channelValue`, `cosOsc`); everything else
is exact rational arithmetic. -/

structure Particle where
  origin : Vec ℚ
  position : Vec ℚ
  velocity : Vec ℚ
  acceleration : Vec ℚ
  friction : ℚ
  naturalSize : ℚ
  size : ℚ
  sizeVelocity : ℚ
  oscSize : ℚ
  initSize : ℚ
  initSizeVelocity : ℚ
  isVisible : Bool
deriving DecidableEq

/-- `applyForce`: `this.acceleration.add(force)`. -/
def Particle.applyForce (p : Particle) (force : Vec ℚ) : Particle :=
  { p with acceleration := p.acceleration.add force }

/-- `applyOriginAttraction`: accumulate `(position - origin) * -0.02`. -/
def Particle.applyOriginAttraction (p : Particle) : Particle :=
  p.applyForce ((p.position.subtract p.origin).scale (-(2 / 100)))

/-- `calculateSize`: ramp `initSize` toward `1`, settle `size` toward
`naturalSize * channelValue`, and recompute the oscillation factor
`cos(...) * oscAmplitude + 1` from the wall clock (the cosine is the
impure input `cosOsc`). -/
def Particle.calculateSize (channelValue cosOsc oscAmplitude : ℚ)
    (p : Particle) : Particle :=
  let p1 := if p.initSize ≠ 1 then
      { p with initSize := min 1 (p.initSize + p.initSizeVelocity) }
    else p
  let targetSize := p1.naturalSize * channelValue
  let sizeAcceleration := (targetSize - p1.size) * (1 / 10)
  let sizeVelocity := (p1.sizeVelocity + sizeAcceleration) * (1 - 3 / 10)
  { p1 with
    size := p1.size + sizeVelocity
    sizeVelocity := sizeVelocity
    oscSize := cosOsc * oscAmplitude + 1 }

/-- The body of `update` after the visibility gate: set `isVisible`, apply
the origin attraction, integrate, reset the acceleration, and recompute the
size. -/
def Particle.updateBody (channelValue cosOsc oscAmplitude : ℚ)
    (p : Particle) : Particle :=
  let p1 := { p with isVisible := true }
  let p2 := p1.applyOriginAttraction
  let p3 := { p2 with velocity := p2.velocity.add p2.acceleration }
  let p4 := { p3 with velocity := p3.velocity.scale (1 - p3.friction) }
  let p5 := { p4 with position := p4.position.add p4.velocity }
  let p6 := { p5 with acceleration := (⟨0, 0⟩ : Vec ℚ) }
  Particle.calculateSize channelValue cosOsc oscAmplitude p6

/-- `update`: `if (!this.isVisible && Math.random() > 0.03) return;` then the
full per-frame body. -/
def Particle.update (randomDraw channelValue cosOsc oscAmplitude : ℚ)
    (p : Particle) : Particle :=
  if p.isVisible = false ∧ 3 / 100 < randomDraw then p
  else Particle.updateBody channelValue cosOsc oscAmplitude p

/-! ## The size-settling recurrence (spec §4.4 step 5)

The `(size, sizeVelocity)` sub-state of `calculateSize` under a constant
target, iterated from `(0, 0)`. -/

/-- One settling step: `v' = (v + (t - s) * 0.1) * (1 - 0.3); s' = s + v'`. -/
def settleStep (t : ℚ) (sv : ℚ × ℚ) : ℚ × ℚ :=
  let v := (sv.2 + (t - sv.1) * (1 / 10)) * (1 - 3 / 10)
  (sv.1 + v, v)

/-- The trajectory from `size = 0, sizeVelocity = 0`. -/
def settle (t : ℚ) : ℕ → ℚ × ℚ
  | 0 => (0, 0)
  | n + 1 => settleStep t (settle t n)

/-- The settling recurrence is exactly the `(size, sizeVelocity)` update
performed by `Particle.calculateSize` with target `naturalSize * channelValue`. -/
theorem calculateSize_settleStep (channelValue cosOsc oscAmplitude : ℚ)
    (p : Particle) (h : p.initSize = 1) :
    ((Particle.calculateSize channelValue cosOsc oscAmplitude p).size,
      (Particle.calculateSize channelValue cosOsc oscAmplitude p).sizeVelocity)
      = settleStep (p.naturalSize * channelValue) (p.size, p.sizeVelocity) := by
  simp [Particle.calculateSize, settleStep, h]

/-! ## Engine options and configuration

`BreathingHalftone.defaults` merged with the caller's options.  The merged
record is what the engine reads; the merge itself (`{...defaults, ...options}`)
is modelled by quantifying over the merged record. -/

structure Options where
  dotSize : ℝ
  dotSizeThreshold : ℝ
  initVelocity : ℝ
  oscPeriod : ℝ
  oscAmplitude : ℝ
  isAdditive : Bool
  isRadial : Bool
  channels : List Channel
  isChannelLens : Bool
  friction : ℝ
  hoverDiameter : ℝ
  hoverForce : ℝ
  activeDiameter : ℝ
  activeForce : ℝ

/-- `BreathingHalftone.defaults`. -/
noncomputable def defaults : Options where
  dotSize := 1 / 40
  dotSizeThreshold := 1 / 20
  initVelocity := 1 / 50
  oscPeriod := 3
  oscAmplitude := 1 / 5
  isAdditive := false
  isRadial := false
  channels := [.red, .green, .blue]
  isChannelLens := true
  friction := 3 / 50
  hoverDiameter := 3 / 10
  hoverForce := -(1 / 50)
  activeDiameter := 3 / 5
  activeForce := 1 / 100

/-- The decoded source image: RGBA bytes plus pixel dimensions
(`imgData`, `imgWidth`, `imgHeight` in the source). -/
structure Image where
  data : List ℕ
  width : ℕ
  height : ℕ

/-- The engine state the grid builders read after `resizeCanvas` has run:
the laid-out box `w × h`, the merged options, and the decoded image. -/
structure EngineConfig where
  w : ℝ
  h : ℝ
  options : Options
  img : Image

/-- `this.diagonal = Math.sqrt(w * w + h * h)` (set in `resizeCanvas`). -/
noncomputable def EngineConfig.diagonal (c : EngineConfig) : ℝ :=
  Real.sqrt (c.w * c.w + c.h * c.h)

/-- `this.gridSize = this.options.dotSize * this.diagonal`. -/
noncomputable def EngineConfig.gridSize (c : EngineConfig) : ℝ :=
  c.options.dotSize * c.diagonal

/-- `this.imgScale = w / this.imgWidth`. -/
noncomputable def EngineConfig.imgScale (c : EngineConfig) : ℝ :=
  c.w / c.img.width

/-- `this.getPixelChannelValue(x, y, channel)` on the engine's own image. -/
noncomputable def EngineConfig.sample (c : EngineConfig) (x y : ℝ)
    (channel : Channel) : ℝ :=
  getPixelChannelValue c.img.data c.img.width c.img.height c.imgScale
    c.options.isAdditive x y channel

/-! ## Grid builders

Both builders run counted `for` loops whose bound is `Math.ceil` of a
division.  In JavaScript a zero divisor does not throw: `0 / 0` is `NaN`,
`Math.ceil(NaN)` is `NaN`, and `i < NaN` is false, so the loop body runs
zero times; `a / 0` with `a > 0` is `Infinity` and the loop never
terminates.  `jsCeilIter a b` is the number of iterations of
`for (i = 0; i < Math.ceil(a / b); i++)` — `none` marks the divergent
`Infinity` case, which no claim exercises. -/

noncomputable def jsCeilIter (a b : ℝ) : Option ℕ :=
  if b = 0 then (if 0 < a then none else some 0) else some (Int.toNat ⌈a / b⌉)

/-- The body of the cartesian loop: center the `(row, col)` lattice cell on
the surface, rotate it by the channel angle about the surface center. -/
noncomputable def rotatedGridPoint (w h gridSize diag angle : ℝ)
    (row col : ℕ) : ℝ × ℝ :=
  let x1 := (col + 1 / 2) * gridSize - (diag - w) / 2 - w / 2
  let y1 := (row + 1 / 2) * gridSize - (diag - h) / 2 - h / 2
  (x1 * Real.cos angle - y1 * Real.sin angle + w / 2,
   x1 * Real.sin angle + y1 * Real.cos angle + h / 2)

/-- The candidate lattice points of `getCartesianGridParticles` (the
coordinates handed to `initParticle`, before threshold pruning).  `diag` is
`Math.max(w, h) * ROOT_2`; the spacing is the engine's `gridSize`; `cols`
and `rows` are both `Math.ceil(diag / gridSize)`. -/
noncomputable def cartesianCandidatePoints (c : EngineConfig) (angle : ℝ) :
    Option (List (ℝ × ℝ)) :=
  let diag := max c.w c.h * Real.sqrt 2
  let gridSize := c.gridSize
  (jsCeilIter diag gridSize).map fun rows =>
    (List.range rows).flatMap fun row =>
      (List.range rows).map fun col =>
        rotatedGridPoint c.w c.h gridSize diag angle row col

/-- `level * 6 || 1`: the number of points on ring `level`. -/
def ringMax (level : ℕ) : ℕ := if level * 6 = 0 then 1 else level * 6

/-- The candidate points of `getRadialGridParticles`: concentric rings about
a center offset from the surface center by `gridSize` in the channel angle
direction, `ringMax level` points on ring `level`, rings
`0 ≤ level < Math.ceil((diag + offset) / gridSize)`. -/
noncomputable def radialCandidatePoints (c : EngineConfig) (angle : ℝ) :
    Option (List (ℝ × ℝ)) :=
  let diag := max c.w c.h * Real.sqrt 2
  let gridSize := c.gridSize
  let offset := gridSize
  let centerX := c.w / 2 + Real.cos angle * offset
  let centerY := c.h / 2 + Real.sin angle * offset
  (jsCeilIter (diag + offset) gridSize).map fun maxLevel =>
    (List.range maxLevel).flatMap fun level =>
      (List.range (ringMax level)).map fun (j : ℕ) =>
        (centerX
            + Real.cos (2 * Real.pi * j / ringMax level + angle)
              * level * gridSize,
         centerY
            + Real.sin (2 * Real.pi * j / ringMax level + angle)
              * level * gridSize)

/-- The particle record built by `initParticle` (the fields the claims
touch: the channel, the fixed origin, and `naturalSize`). -/
structure CreatedParticle where
  channel : Channel
  origin : ℝ × ℝ
  naturalSize : ℝ

/-- `initParticle(channel, x, y)`: sample the channel at the candidate
origin and discard the candidate when the value is below
`dotSizeThreshold`; otherwise build the particle with
`naturalSize = gridSize * ROOT_2 / 2`. -/
noncomputable def initParticle (c : EngineConfig) (channel : Channel)
    (x y : ℝ) : Option CreatedParticle :=
  if c.sample x y channel < c.options.dotSizeThreshold then none
  else some ⟨channel, (x, y), c.gridSize * Real.sqrt 2 / 2⟩

/-- `getCartesianGridParticles(channel, angle)`: prune the candidate lattice
through `initParticle`. -/
noncomputable def getCartesianGridParticles (c : EngineConfig)
    (channel : Channel) (angle : ℝ) : Option (List CreatedParticle) :=
  (cartesianCandidatePoints c angle).map fun pts =>
    pts.filterMap fun pt => initParticle c channel pt.1 pt.2

/-- `getRadialGridParticles(channel, angle)`: prune the ring candidates
through `initParticle`. -/
noncomputable def getRadialGridParticles (c : EngineConfig)
    (channel : Channel) (angle : ℝ) : Option (List CreatedParticle) :=
  (radialCandidatePoints c angle).map fun pts =>
    pts.filterMap fun pt => initParticle c channel pt.1 pt.2

/-- The standalone vendored copy (`src/vendor/breathing-halftone.ts`)
computes the cartesian spacing from a local
`gridSize = dotSize * diag` with `diag = Math.max(w, h) * ROOT_2`, instead
of the engine field `gridSize = dotSize * diagonal`.  Kept for comparison
with the class-based copy above. -/
noncomputable def cartesianCandidatePointsVendored (w h dotSize angle : ℝ) :
    Option (List (ℝ × ℝ)) :=
  let diag := max w h * Real.sqrt 2
  let gridSize := dotSize * diag
  (jsCeilIter diag gridSize).map fun rows =>
    (List.range rows).flatMap fun row =>
      (List.range rows).map fun col =>
        rotatedGridPoint w h gridSize diag angle row col

/-! ## Per-frame cursor forces (`update` in the engine)

For every particle × cursor pair the engine computes
`radius = diameter / 2 * diagonal`,
`distanceScale = Math.max(0, radius - force.magnitude) / radius`, remaps it
through `cos(distanceScale * π) * -0.5 + 0.5` and scales the
particle-to-cursor vector.  There is no guard on `radius`: when the active
cursor-state diameter is `0` the numerator `Math.max(0, 0 - |force|)` is `0`
and the division is `0 / 0 = NaN`, which propagates through `Math.cos` and
the scaling into the force vector.  `none` marks a non-finite (NaN)
`distanceScale`; a zero divisor always lands in that case here because the
numerator is clamped to `0` first (and an infinite quotient would become
`NaN` inside `Math.cos` anyway). -/

noncomputable def jsDivOpt (a b : ℝ) : Option ℝ :=
  if b = 0 then none else some (a / b)

/-- The force contributed by one cursor to one particle, or `none` when the
computation produces `NaN` components. -/
noncomputable def cursorForce (opts : Options) (diagonal : ℝ)
    (particlePosition cursorPosition : Vec ℝ) (isDown : Bool) :
    Option (Vec ℝ) :=
  let forceScale := if isDown then opts.activeForce else opts.hoverForce
  let diameter := if isDown then opts.activeDiameter else opts.hoverDiameter
  let radius := diameter / 2 * diagonal
  let force := particlePosition.subtract cursorPosition
  (jsDivOpt (max 0 (radius - force.magnitude)) radius).map fun ds =>
    force.scale ((Real.cos (ds * Real.pi) * (-(1 / 2)) + 1 / 2) * forceScale)

/-! ## Lifecycle: feature detection and the constructor

`supports` is initialized to all-false at module load and — as a search over
the whole repository confirms — never written again (the upstream feature
detection was not carried over).  The constructor merges the options, then
short-circuits on `if (!supports.canvas) return;` before `create()` can
build the canvas, hide the image, start the image load, or spawn particles. -/

structure Supports where
  canvas : Bool
  darker : Bool
deriving DecidableEq

/-- `const supports = { canvas: false, darker: false };` -/
def supports : Supports := ⟨false, false⟩

inductive Lifecycle where
  | uninitialized
  | loading
  | running
  | destroyed
deriving DecidableEq

/-- The host-visible effects of running the constructor. -/
structure ConstructEffects where
  lifecycle : Lifecycle
  canvasCreated : Bool
  imageLoadStarted : Bool
  particlesSpawned : ℕ
deriving DecidableEq

/-- The `BreathingHalftone` constructor: merge options into
`optionsMerged`, then abort unless `supports.canvas`; otherwise `create()`
builds the canvas and starts the (asynchronous) image load, entering the
loading phase with no particles yet. -/
def construct (_img : Image) (_optionsMerged : Options) : ConstructEffects :=
  if supports.canvas = false then
    { lifecycle := .uninitialized
      canvasCreated := false
      imageLoadStarted := false
      particlesSpawned := 0 }
  else
    { lifecycle := .loading
      canvasCreated := true
      imageLoadStarted := true
      particlesSpawned := 0 }

/-! ## `destroy()`

The host-visible state `destroy` touches on a created instance: the
`isActive` flag, the bound event listeners, the two inline `img` style
properties, and whether the canvas is attached to the document
(`canvas.parentNode !== null`).  `destroy` clears the flag, unbinds the
listeners, resets both styles, then runs
`this.canvas.parentNode.removeChild(this.canvas)` — when the canvas has
already been detached, `parentNode` is `null` and the member access throws a
`TypeError`.  The model returns the state as mutated up to the throw point
together with the thrown error, if any. -/

inductive JsError where
  | typeError
deriving DecidableEq

structure EngineDom where
  isActive : Bool
  listenersBound : Bool
  imgVisibility : String
  imgDisplay : String
  canvasAttached : Bool
deriving DecidableEq

/-- The state right after `create()` and `onImgLoad` have run:
listeners bound, `img.style.visibility = 'hidden'`,
`img.style.display = 'none'`, canvas inserted after the image. -/
def createdDom : EngineDom :=
  { isActive := true
    listenersBound := true
    imgVisibility := "hidden"
    imgDisplay := "none"
    canvasAttached := true }

/-- The host-visible state after one successful `destroy()`. -/
def destroyedDom : EngineDom :=
  { isActive := false
    listenersBound := false
    imgVisibility := ""
    imgDisplay := ""
    canvasAttached := false }

/-- `destroy()`.  The five statements run in source order; only the last one
can throw. -/
def destroy (s : EngineDom) : EngineDom × Option JsError :=
  let s1 : EngineDom :=
    { s with
      isActive := false
      listenersBound := false
      imgVisibility := ""
      imgDisplay := "" }
  if s1.canvasAttached then ({ s1 with canvasAttached := false }, none)
  else (s1, some .typeError)

/-! ## Helper lemmas -/

theorem calculateSize_velocity (cv co amp : ℚ) (p : Particle) :
    (Particle.calculateSize cv co amp p).velocity = p.velocity := by
  simp only [Particle.calculateSize]
  split <;> rfl

theorem calculateSize_position (cv co amp : ℚ) (p : Particle) :
    (Particle.calculateSize cv co amp p).position = p.position := by
  simp only [Particle.calculateSize]
  split <;> rfl

theorem calculateSize_acceleration (cv co amp : ℚ) (p : Particle) :
    (Particle.calculateSize cv co amp p).acceleration = p.acceleration := by
  simp only [Particle.calculateSize]
  split <;> rfl

/-- A not-yet-visible particle used by the claims about the `update` gate:
its acceleration already holds an accumulated force. -/
def particle0 : Particle :=
  { origin := ⟨0, 0⟩
    position := ⟨0, 0⟩
    velocity := ⟨0, 0⟩
    acceleration := ⟨1, 0⟩
    friction := 3 / 50
    naturalSize := 1
    size := 0
    sizeVelocity := 0
    oscSize := 0
    initSize := 0
    initSizeVelocity := 1 / 100
    isVisible := false }

/-- The same particle once it has become visible. -/
def particle1 : Particle := { particle0 with isVisible := true }

/-! ## List-counting helpers -/

theorem length_flatMap_map_const {β : Type} (n m : ℕ) (f : ℕ → ℕ → β) :
    ((List.range n).flatMap fun row => (List.range m).map (f row)).length
      = n * m := by
  rw [List.length_flatMap]
  simp only [Function.comp_def, List.length_map, List.length_range]
  rw [List.map_const', List.sum_replicate, List.length_range, smul_eq_mul]

theorem length_flatMap_map {β : Type} (n : ℕ) (g : ℕ → ℕ) (f : ℕ → ℕ → β) :
    ((List.range n).flatMap fun lvl => (List.range (g lvl)).map (f lvl)).length
      = ((List.range n).map g).sum := by
  rw [List.length_flatMap]
  simp only [Function.comp_def, List.length_map, List.length_range]

theorem sum_range_ringMax (L : ℕ) (h : 1 ≤ L) :
    ((List.range L).map ringMax).sum = 1 + 3 * L * (L - 1) := by
  induction L with
  | zero => omega
  | succ L ih =>
      rw [List.range_succ, List.map_append, List.sum_append]
      match L, h with
      | 0, _ => simp [ringMax]
      | L + 1, _ =>
          rw [ih (by omega)]
          simp only [List.map_cons, List.map_nil, List.sum_cons, List.sum_nil,
            ringMax]
          have h6 : (L + 1) * 6 ≠ 0 := by omega
          rw [if_neg h6]
          simp only [Nat.add_sub_cancel]
          ring

/-- When `f` keeps only elements that `g` also keeps, `filterMap f` is no
longer than `filterMap g`. -/
theorem length_filterMap_mono {β γ : Type} (f g : β → Option γ)
    (h : ∀ b, (f b).isSome → (g b).isSome) (l : List β) :
    (l.filterMap f).length ≤ (l.filterMap g).length := by
  induction l with
  | nil => simp
  | cons a l ih =>
      simp only [List.filterMap_cons]
      cases hf : f a with
      | none =>
          cases hg : g a with
          | none => exact ih
          | some cg =>
              simp only [List.length_cons]
              exact Nat.le_succ_of_le ih
      | some cf =>
          have hgs := h a (by simp [hf])
          cases hg : g a with
          | none =>
              rw [hg] at hgs
              simp at hgs
          | some cg =>
              simp only [List.length_cons]
              exact Nat.succ_le_succ ih

/-! ## Real-number evaluation helpers -/

theorem sqrt_two_bounds : (141 / 100 : ℝ) < Real.sqrt 2
    ∧ Real.sqrt 2 < 142 / 100 := by
  have h2 : Real.sqrt 2 ^ 2 = 2 := Real.sq_sqrt (by norm_num)
  have hnn : (0 : ℝ) ≤ Real.sqrt 2 := Real.sqrt_nonneg 2
  constructor <;> nlinarith [h2, hnn]

theorem sqrt_self_mul_self {w : ℝ} (hw : 0 ≤ w) :
    Real.sqrt (w * w + w * w) = w * Real.sqrt 2 := by
  have : w * w + w * w = (w * Real.sqrt 2) ^ 2 := by
    have h2 : Real.sqrt 2 ^ 2 = 2 := Real.sq_sqrt (by norm_num)
    nlinarith [h2]
  rw [this, Real.sqrt_sq (by positivity)]

/-! ## C4 helper development

The settling recurrence on the error/velocity pair
`(e, v) = (t - size, sizeVelocity)` is linear:
`e' = 0.93 e - 0.7 v`, `v' = 0.07 e + 0.7 v`.  Its eigenvalues are complex
of squared modulus `0.7`, so the trajectory is a damped spiral, not a
monotone approach.  The quadratic form `lyap` is an exact Lyapunov function:
it contracts by the factor `7/10` every step. -/

def lyap (e v : ℚ) : ℚ := e ^ 2 - 23 / 7 * e * v + 10 * v ^ 2

theorem lyap_step (e v : ℚ) :
    lyap (93 / 100 * e - 7 / 10 * v) (7 / 100 * e + 7 / 10 * v)
      = 7 / 10 * lyap e v := by
  simp only [lyap]
  ring

theorem settle_error_step (n : ℕ) :
    1 - (settle 1 (n + 1)).1
        = 93 / 100 * (1 - (settle 1 n).1) - 7 / 10 * (settle 1 n).2
    ∧ (settle 1 (n + 1)).2
        = 7 / 100 * (1 - (settle 1 n).1) + 7 / 10 * (settle 1 n).2 := by
  constructor <;> · simp only [settle, settleStep]; ring

theorem lyap_settle (n : ℕ) :
    lyap (1 - (settle 1 n).1) (settle 1 n).2 = (7 / 10) ^ n := by
  induction n with
  | zero => simp [settle, lyap]
  | succ n ih =>
      rw [(settle_error_step n).1, (settle_error_step n).2, lyap_step, ih,
        pow_succ]
      ring

theorem lyap_lower (e v : ℚ) : 1431 * e ^ 2 ≤ 1960 * lyap e v := by
  have h : 1960 * lyap e v - 1431 * e ^ 2 = (23 * e - 140 * v) ^ 2 := by
    simp only [lyap]
    ring
  nlinarith [sq_nonneg (23 * e - 140 * v), h]

theorem settle_one_fst_le_two (n : ℕ) : (settle 1 n).1 ≤ 2 := by
  match n with
  | 0 => norm_num [settle]
  | 1 => norm_num [settle, settleStep]
  | n + 2 =>
      have hV := lyap_settle (n + 2)
      have hpow : ((7 : ℚ) / 10) ^ (n + 2) ≤ (7 / 10) ^ 2 :=
        pow_le_pow_of_le_one (by norm_num) (by norm_num) (by omega)
      have hlow := lyap_lower (1 - (settle 1 (n + 2)).1) (settle 1 (n + 2)).2
      rw [hV] at hlow
      nlinarith [hlow, hpow,
        sq_nonneg (1 - (settle 1 (n + 2)).1 + 1)]

theorem settle_homogeneous (t : ℚ) (n : ℕ) :
    settle t n = (t * (settle 1 n).1, t * (settle 1 n).2) := by
  induction n with
  | zero => simp [settle]
  | succ n ih =>
      rw [settle, settle, ih]
      simp only [settleStep, Prod.mk.injEq]
      constructor <;> ring

/-! ## C4 -/

/-- C4 counterexample: with `target_size = 1` the settling iteration
overshoots the target at iteration 10 and its distance to the target then
grows from iteration 10 to iteration 11 — the approach is not monotone, let
alone strictly monotone. -/
theorem C4_overshoot_cex :
    1 < (settle 1 10).1
    ∧ |1 - (settle 1 10).1| < |1 - (settle 1 11).1| := by
  constructor
  · norm_num [settle, settleStep]
  · norm_num [settle, settleStep, abs_sub_comm]
    rw [abs_of_nonneg (by norm_num), abs_of_nonneg (by norm_num)]
    norm_num

/-- C4 (amended): for every constant `target_size = t ≥ 0`, the settling
iteration from `size = 0, size_velocity = 0` is a damped (spiralling)
approach: it can pass the target but never overshoots beyond `2 × t` at any
iteration, and it is within 1% of the target by iteration 22.  (The
"strictly monotonic approach" part of the claim is false — see the
counterexample.) -/
theorem C4_settling_bounded (t : ℚ) (ht : 0 ≤ t) :
    (∀ n, (settle t n).1 ≤ 2 * t) ∧ |t - (settle t 22).1| ≤ t / 100 := by
  constructor
  · intro n
    rw [settle_homogeneous]
    calc t * (settle 1 n).1 ≤ t * 2 :=
          mul_le_mul_of_nonneg_left (settle_one_fst_le_two n) ht
    _ = 2 * t := mul_comm t 2
  · rw [settle_homogeneous]
    have h22 : |1 - (settle 1 22).1| ≤ 1 / 100 := by
      norm_num [settle, settleStep, abs_le]
    calc |t - t * (settle 1 22).1| = |t * (1 - (settle 1 22).1)| := by
          rw [mul_one_sub]
    _ = |t| * |1 - (settle 1 22).1| := abs_mul t (1 - (settle 1 22).1)
    _ = t * |1 - (settle 1 22).1| := by rw [abs_of_nonneg ht]
    _ ≤ t * (1 / 100) := mul_le_mul_of_nonneg_left h22 ht
    _ = t / 100 := by ring

theorem C4_settling_bounded_witness :
    (settle 1 10).1 ≤ 2 * 1 ∧ |1 - (settle 1 22).1| ≤ 1 / 100 :=
  ⟨(C4_settling_bounded 1 (by norm_num)).1 10,
    by simpa using (C4_settling_bounded 1 (by norm_num)).2⟩

/-! ## C1 -/

/-- C1: `supports` is the constant `{ canvas: false, darker: false }` (never
reassigned anywhere in the repository), so for every image and merged
options record the constructor aborts during feature detection: no canvas is
created, no image load starts, no particle is spawned, and the lifecycle
stays uninitialized — never loading, never running. -/
theorem C1_feature_gate_aborts :
    supports = ⟨false, false⟩
    ∧ ∀ (img : Image) (optionsMerged : Options),
        construct img optionsMerged
          = { lifecycle := .uninitialized
              canvasCreated := false
              imageLoadStarted := false
              particlesSpawned := 0 } :=
  ⟨rfl, fun _ _ => rfl⟩

/-! ## C2 -/

/-- C2 counterexample: on a created instance the first `destroy()` returns
normally, but the second one throws a `TypeError` (the canvas has no parent
node any more), refuting "the second call never throws: it is a no-op". -/
theorem C2_second_destroy_throws_cex :
    (destroy createdDom).2 = none
    ∧ (destroy (destroy createdDom).1).2 = some JsError.typeError := by decide

/-- C2 (amended): calling `destroy()` twice leaves the same host-visible
state as calling it once, but the second call is not a no-op: it throws a
`TypeError` when it dereferences the `parentNode` of the already-detached
canvas. -/
theorem C2_destroy_twice (s : EngineDom) (h : s.canvasAttached = true) :
    destroy s = (destroyedDom, none)
    ∧ destroy destroyedDom = (destroyedDom, some JsError.typeError) := by
  obtain ⟨a, l, v, d, c⟩ := s
  cases h
  exact ⟨rfl, rfl⟩

theorem C2_destroy_twice_witness :
    destroy createdDom = (destroyedDom, none)
    ∧ destroy destroyedDom = (destroyedDom, some JsError.typeError) :=
  C2_destroy_twice createdDom rfl

/-! ## C3 -/

/-- C3 counterexample: a 1×1 image, `imgScale = 1`, subtractive polarity.
The coordinate `(0, 1)` maps to pixel `(0, 1)`, which is outside the pixel
rectangle `[0,1)×[0,1)`; but the guard only rejects `y > height`, so the
sampler reads past the byte array (`value = 0` after `|| 0`), inverts, and
returns `1`, not `0`. -/
theorem C3_oob_returns_one_cex :
    jsRound ((0 : ℚ) / 1) = 0 ∧ jsRound ((1 : ℚ) / 1) = 1
    ∧ getPixelChannelValue (K := ℚ) [0, 0, 0, 255] 1 1 1 false 0 1 .lum = 1 := by
  have hx : jsRound ((0 : ℚ) / 1) = 0 := by
    rw [jsRound, Int.floor_eq_iff]; norm_num
  have hy : jsRound ((1 : ℚ) / 1) = 1 := by
    rw [jsRound, Int.floor_eq_iff]; norm_num
  refine ⟨hx, hy, ?_⟩
  simp only [getPixelChannelValue, hx, hy]
  norm_num [getPixelLum]

/-- C3 (amended): whenever the mapped source pixel lies outside the closed
rectangle `[0,width]×[0,height]` — x < 0, x > width, y < 0 or y > height
after rounding — the sampler returns exactly `0`, for every channel and both
polarities.  (Mapped pixels on the boundary column `x = width` or row
`y = height` are inside the code's guard and are not covered.) -/
theorem C3_oob_guard {K : Type} [LinearOrderedField K] [FloorRing K]
    (imgData : List ℕ) (imgWidth imgHeight : ℕ) (imgScale : K)
    (isAdditive : Bool) (x y : K) (channel : Channel)
    (h : jsRound (x / imgScale) < 0 ∨ (imgWidth : ℤ) < jsRound (x / imgScale)
        ∨ jsRound (y / imgScale) < 0 ∨ (imgHeight : ℤ) < jsRound (y / imgScale)) :
    getPixelChannelValue imgData imgWidth imgHeight imgScale isAdditive x y
      channel = 0 := by
  simp only [getPixelChannelValue]
  rw [if_pos h]

theorem C3_oob_guard_witness :
    getPixelChannelValue (K := ℚ) [0, 0, 0, 255] 1 1 1 false (-5) 0 .red = 0 :=
  C3_oob_guard [0, 0, 0, 255] 1 1 1 false (-5) 0 .red
    (Or.inl (by
      have h5 : jsRound ((-5 : ℚ) / 1) = -5 := by
        rw [jsRound, Int.floor_eq_iff]; norm_num
      rw [h5]
      norm_num))

/-! ## C6 -/

/-- C6: the claim fails — `radius` is not clamped away from zero.  With the
configuration `hoverDiameter = 0` and a cursor that is not pressed, the
radius is `0`, `distanceScale = max(0, 0 - |force|) / 0 = 0 / 0 = NaN`, and
the force applied to the particle has NaN components (modelled as `none`).
The spec's "must be guarded by clamping `radius` away from zero before
division" names the intended behavior; the code omits the guard. -/
theorem C6_zero_diameter_force_nan :
    cursorForce { defaults with hoverDiameter := 0 } 10 ⟨1, 0⟩ ⟨0, 0⟩ false
      = none := by
  simp [cursorForce, jsDivOpt]

/-! ## C7 -/

/-- C7 counterexample: `update` on a not-yet-visible particle whose random
draw exceeds `0.03` returns without performing any of the per-frame
transition — in particular the accumulated acceleration is not reset to
`(0, 0)` — refuting "no call to update returns without executing this
transition". -/
theorem C7_update_skips_cex :
    Particle.update (1 / 2) 1 1 (1 / 5) particle0 = particle0
    ∧ (Particle.update (1 / 2) 1 1 (1 / 5) particle0).acceleration
        ≠ (⟨0, 0⟩ : Vec ℚ) := by
  have h : Particle.update (1 / 2) 1 1 (1 / 5) particle0 = particle0 := by
    rw [Particle.update, if_pos]
    exact ⟨rfl, by norm_num⟩
  refine ⟨h, ?_⟩
  rw [h]
  simp only [particle0, Vec.mk.injEq, ne_eq]
  norm_num

/-- C7 (amended): once a particle is visible, every `update` performs the
full transition — origin attraction added into the acceleration, then
`velocity += acceleration; velocity *= (1 - friction); position += velocity`
and the acceleration reset to `(0, 0)`; but on a not-yet-visible particle
whose random draw exceeds `0.03`, `update` returns the state unchanged. -/
theorem C7_update_gated (p : Particle) (r cv co amp : ℚ) :
    (p.isVisible = true →
      (Particle.update r cv co amp p).velocity
          = (p.velocity.add (p.acceleration.add
              ((p.position.subtract p.origin).scale (-(2 / 100))))).scale
              (1 - p.friction)
      ∧ (Particle.update r cv co amp p).position
          = p.position.add
              ((p.velocity.add (p.acceleration.add
                ((p.position.subtract p.origin).scale (-(2 / 100))))).scale
                (1 - p.friction))
      ∧ (Particle.update r cv co amp p).acceleration = (⟨0, 0⟩ : Vec ℚ))
    ∧ (p.isVisible = false → 3 / 100 < r →
        Particle.update r cv co amp p = p) := by
  constructor
  · intro h
    simp [Particle.update, h, Particle.updateBody,
      Particle.applyOriginAttraction, Particle.applyForce,
      calculateSize_velocity, calculateSize_position,
      calculateSize_acceleration]
  · intro h hr
    simp [Particle.update, h, hr]

theorem C7_update_gated_witness :
    (Particle.update (1 / 2) 1 1 (1 / 5) particle1).acceleration
        = (⟨0, 0⟩ : Vec ℚ)
    ∧ Particle.update (1 / 2) 1 1 (1 / 5) particle0 = particle0 :=
  ⟨((C7_update_gated particle1 (1 / 2) 1 1 (1 / 5)).1 rfl).2.2,
    (C7_update_gated particle0 (1 / 2) 1 1 (1 / 5)).2 rfl (by norm_num)⟩

/-! ## C10 -/

/-- C10: with a zero-size host box (`w = 0`, `h = 0`) both grid builders
return an empty particle set without failing: the loop bound is
`Math.ceil(0 / 0) = Math.ceil(NaN)`, the comparison against `NaN` is false,
and the loops run zero times, for every option record, image, channel and
rotation angle. -/
theorem C10_zero_box (opts : Options) (img : Image) (channel : Channel)
    (angle : ℝ) :
    getCartesianGridParticles ⟨0, 0, opts, img⟩ channel angle = some []
    ∧ getRadialGridParticles ⟨0, 0, opts, img⟩ channel angle = some [] := by
  have hg : (⟨0, 0, opts, img⟩ : EngineConfig).gridSize = 0 := by
    simp [EngineConfig.gridSize, EngineConfig.diagonal]
  constructor
  · simp [getCartesianGridParticles, cartesianCandidatePoints, hg, jsCeilIter]
  · simp [getRadialGridParticles, radialCandidatePoints, hg, jsCeilIter]

/-! ## C9 -/

/-- C9: in radial mode ring `k` contributes exactly `max(6k, 1)` candidate
origins (`level * 6 || 1` points on ring `level`), and when the loop bound
`maxLevel = Math.ceil((diag + offset) / gridSize)` is `L ≥ 1` — which holds
whenever `gridSize > 0` — the total number of candidates before threshold
pruning is `1 + 3·L·(L − 1)`. -/
theorem C9_radial_ring_counts (c : EngineConfig) (angle : ℝ) (L : ℕ)
    (hL : jsCeilIter (max c.w c.h * Real.sqrt 2 + c.gridSize) c.gridSize
      = some L)
    (h1 : 1 ≤ L) :
    (∀ k, ringMax k = max (6 * k) 1)
    ∧ (radialCandidatePoints c angle).map List.length
        = some (1 + 3 * L * (L - 1)) := by
  constructor
  · intro k
    match k with
    | 0 => simp [ringMax]
    | k + 1 =>
        simp only [ringMax]
        rw [if_neg (by omega)]
        omega
  · simp only [radialCandidatePoints]
    rw [hL]
    simp only [Option.map_some']
    congr 1
    rw [length_flatMap_map, sum_range_ringMax L h1]

/-- A 1×1 image placeholder for claims whose statement does not depend on
the pixels. -/
def img0 : Image := ⟨[0, 0, 0, 255], 1, 1⟩

/-- A 3×4 surface with `dotSize = 1`: the engine diagonal is `√25 = 5`. -/
noncomputable def c34unit : EngineConfig :=
  ⟨3, 4, { defaults with dotSize := 1 }, img0⟩

theorem c34unit_gridSize : c34unit.gridSize = 5 := by
  simp only [c34unit, EngineConfig.gridSize, EngineConfig.diagonal]
  rw [show (3 : ℝ) * 3 + 4 * 4 = 5 ^ 2 by norm_num,
    Real.sqrt_sq (by norm_num)]
  norm_num

theorem C9_radial_ring_counts_witness :
    (radialCandidatePoints c34unit 0).map List.length
      = some (1 + 3 * 3 * (3 - 1)) := by
  have hmax : max c34unit.w c34unit.h = 4 := by
    norm_num [c34unit, max_def]
  have hceil : ⌈(4 * Real.sqrt 2 + 5) / 5⌉ = (3 : ℤ) := by
    rw [Int.ceil_eq_iff]
    have hb := sqrt_two_bounds
    constructor
    · push_cast
      rw [lt_div_iff₀ (by norm_num : (0 : ℝ) < 5)]
      nlinarith [hb.1]
    · push_cast
      rw [div_le_iff₀ (by norm_num : (0 : ℝ) < 5)]
      nlinarith [hb.2]
  have hL : jsCeilIter (max c34unit.w c34unit.h * Real.sqrt 2
      + c34unit.gridSize) c34unit.gridSize = some 3 := by
    rw [c34unit_gridSize, hmax, jsCeilIter, if_neg (by norm_num), hceil]
    rfl
  exact (C9_radial_ring_counts c34unit 0 3 hL (by norm_num)).2

/-! ## C5 -/

/-- The candidate count of the cartesian builder, for any rotation angle:
`rows * cols` with `rows = cols = Math.ceil(diag / gridSize)`. -/
theorem cartesianCandidateCount_eq (c : EngineConfig) (angle : ℝ)
    (hg : c.gridSize ≠ 0) :
    (cartesianCandidatePoints c angle).map List.length
      = some ((⌈max c.w c.h * Real.sqrt 2 / c.gridSize⌉).toNat ^ 2) := by
  simp only [cartesianCandidatePoints, jsCeilIter, if_neg hg,
    Option.map_some']
  congr 1
  rw [length_flatMap_map_const, pow_two]

/-- A 3×4 surface with `dotSize = 1/4`: the engine diagonal is `5`, the
lattice spacing `5/4`, while `diag = max(3,4)·√2 = 4√2`. -/
noncomputable def c34quarter : EngineConfig :=
  ⟨3, 4, { defaults with dotSize := 1 / 4 }, img0⟩

theorem c34quarter_gridSize : c34quarter.gridSize = 5 / 4 := by
  simp only [c34quarter, EngineConfig.gridSize, EngineConfig.diagonal]
  rw [show (3 : ℝ) * 3 + 4 * 4 = 5 ^ 2 by norm_num,
    Real.sqrt_sq (by norm_num)]
  norm_num

/-- C5 counterexample: on the 3×4 surface with `dot_size = 1/4` the
cartesian builder generates `⌈4√2 / (5/4)⌉² = 5² = 25` candidates, not
`⌈1/s⌉² = 16`: the loop bound divides `max(w,h)·√2` — not the surface
diagonal used in the spacing — by `grid_size`. -/
theorem C5_count_cex :
    (cartesianCandidatePoints c34quarter 0).map List.length = some 25
    ∧ (25 : ℕ) ≠ (⌈(1 : ℝ) / (1 / 4)⌉).toNat ^ 2 := by
  constructor
  · rw [cartesianCandidateCount_eq c34quarter 0
      (by rw [c34quarter_gridSize]; norm_num)]
    have hmax : max c34quarter.w c34quarter.h = 4 := by
      norm_num [c34quarter, max_def]
    have hceil : ⌈(4 : ℝ) * Real.sqrt 2 / (5 / 4)⌉ = (5 : ℤ) := by
      rw [Int.ceil_eq_iff]
      have hb := sqrt_two_bounds
      constructor
      · push_cast
        rw [lt_div_iff₀ (by norm_num : (0 : ℝ) < 5 / 4)]
        nlinarith [hb.1]
      · push_cast
        rw [div_le_iff₀ (by norm_num : (0 : ℝ) < 5 / 4)]
        nlinarith [hb.2]
    rw [c34quarter_gridSize, hmax, hceil]
    rfl
  · rw [show ⌈(1 : ℝ) / (1 / 4)⌉ = (4 : ℤ) by norm_num]
    rw [show Int.toNat 4 = 4 from rfl]
    norm_num

/-- C5 (amended): for a `w × h` surface the cartesian builder generates
exactly `⌈(√2·max(w,h)) / grid_size⌉²` candidate lattice points before
threshold pruning, where `grid_size = dot_size × diagonal(surface)`; the
count is independent of the per-channel rotation angle; and exactly on
square surfaces (`w = h`) it coincides with the claimed `⌈1/dot_size⌉²`. -/
theorem C5_cartesian_count (c : EngineConfig) (angle angle2 : ℝ)
    (hg : c.gridSize ≠ 0) :
    (cartesianCandidatePoints c angle).map List.length
        = some ((⌈max c.w c.h * Real.sqrt 2 / c.gridSize⌉).toNat ^ 2)
    ∧ (cartesianCandidatePoints c angle).map List.length
        = (cartesianCandidatePoints c angle2).map List.length
    ∧ (c.w = c.h → 0 < c.w → 0 < c.options.dotSize →
        (cartesianCandidatePoints c angle).map List.length
          = some ((⌈(1 : ℝ) / c.options.dotSize⌉).toNat ^ 2)) := by
  refine ⟨cartesianCandidateCount_eq c angle hg,
    (cartesianCandidateCount_eq c angle hg).trans
      (cartesianCandidateCount_eq c angle2 hg).symm, ?_⟩
  intro hwh hw hs
  rw [cartesianCandidateCount_eq c angle hg]
  have hblock : max c.w c.h * Real.sqrt 2 / c.gridSize
      = 1 / c.options.dotSize := by
    have hgs : c.gridSize = c.options.dotSize * (c.w * Real.sqrt 2) := by
      simp only [EngineConfig.gridSize, EngineConfig.diagonal, ← hwh]
      rw [sqrt_self_mul_self hw.le]
    have hne : c.w * Real.sqrt 2 ≠ 0 := by positivity
    rw [hgs, ← hwh, max_self]
    field_simp
    ring
  rw [hblock]

/-- A square 2×2 surface with `dotSize = 1/3`. -/
noncomputable def c22third : EngineConfig :=
  ⟨2, 2, { defaults with dotSize := 1 / 3 }, img0⟩

theorem C5_cartesian_count_witness :
    (cartesianCandidatePoints c22third 0).map List.length
      = some ((⌈(1 : ℝ) / c22third.options.dotSize⌉).toNat ^ 2) := by
  have hgs : c22third.gridSize = 1 / 3 * (2 * Real.sqrt 2) := by
    simp only [c22third, EngineConfig.gridSize, EngineConfig.diagonal]
    rw [sqrt_self_mul_self (by norm_num : (0 : ℝ) ≤ 2)]
  have hg : c22third.gridSize ≠ 0 := by
    rw [hgs]
    positivity
  exact (C5_cartesian_count c22third 0 1 hg).2.2 rfl (by norm_num [c22third])
    (by norm_num [c22third])

/-! ## C8 -/

/-- A non-uniform 2×2 image: pixels (0,0), (1,0), (0,1) are white, pixel
(1,1) is black. -/
def img8 : Image :=
  ⟨[255, 255, 255, 255, 255, 255, 255, 255, 255, 255, 255, 255, 0, 0, 0, 255],
    2, 2⟩

/-- A square 10×10 surface over `img8` with `dotSize = 1` (one single grid
candidate, at the surface center), subtractive polarity, and threshold `t`. -/
noncomputable def c8cfg (t : ℝ) : EngineConfig :=
  ⟨10, 10,
    { defaults with dotSize := 1, dotSizeThreshold := t, isAdditive := false },
    img8⟩

theorem c8cfg_gridSize (t : ℝ) : (c8cfg t).gridSize = 10 * Real.sqrt 2 := by
  simp only [c8cfg, EngineConfig.gridSize, EngineConfig.diagonal]
  rw [sqrt_self_mul_self (by norm_num : (0 : ℝ) ≤ 10)]
  norm_num

theorem c8cfg_sample (t : ℝ) : (c8cfg t).sample 5 5 .lum = 1 := by
  have hscale : (c8cfg t).imgScale = 5 := by
    simp only [EngineConfig.imgScale, c8cfg, img8]
    norm_num
  have hround : jsRound ((5 : ℝ) / 5) = 1 := by
    rw [jsRound, Int.floor_eq_iff]
    constructor <;> norm_num
  simp only [EngineConfig.sample]
  rw [hscale]
  show getPixelChannelValue img8.data 2 2 5 false (5 : ℝ) 5 .lum = 1
  simp only [getPixelChannelValue, hround, img8]
  norm_num [getPixelLum]

theorem c8cfg_candidates (t : ℝ) :
    cartesianCandidatePoints (c8cfg t) 4 = some [((5 : ℝ), (5 : ℝ))] := by
  have hne : (10 : ℝ) * Real.sqrt 2 ≠ 0 := by positivity
  have hmax : max (c8cfg t).w (c8cfg t).h = 10 := by
    simp [c8cfg]
  simp only [cartesianCandidatePoints, c8cfg_gridSize, hmax, jsCeilIter,
    if_neg hne, div_self hne, Int.ceil_one, Int.toNat_one, Option.map_some']
  congr 1
  simp only [show List.range 1 = [0] from rfl, List.flatMap_cons,
    List.flatMap_nil, List.map_cons, List.map_nil, List.append_nil,
    List.cons.injEq, and_true]
  simp only [rotatedGridPoint, Prod.mk.injEq,
    show (c8cfg t).w = 10 from rfl, show (c8cfg t).h = 10 from rfl]
  push_cast
  constructor <;> · ring_nf

theorem c8cfg_eval (t : ℝ) (ht : t ≤ 1) :
    getCartesianGridParticles (c8cfg t) .lum 4
      = some [⟨.lum, (5, 5), (c8cfg t).gridSize * Real.sqrt 2 / 2⟩] := by
  have hinit : initParticle (c8cfg t) .lum 5 5
      = some ⟨.lum, (5, 5), (c8cfg t).gridSize * Real.sqrt 2 / 2⟩ := by
    rw [initParticle, if_neg]
    rw [c8cfg_sample]
    exact not_lt.mpr ht
  simp only [getCartesianGridParticles, c8cfg_candidates, Option.map_some']
  simp only [List.filterMap_cons, List.filterMap_nil, hinit]

/-- C8 counterexample: on the non-uniform image `img8` (white pixels and a
black pixel), the 10×10 surface with `dotSize = 1` produces exactly one
candidate, whose (subtractive) luminance sample is `1`; so
`dot_size_threshold = 1.0` spawns exactly as many particles (one) as
`dot_size_threshold = 0.0` — the count is not strictly smaller. -/
theorem C8_equal_counts_cex :
    (getCartesianGridParticles (c8cfg 1) .lum 4).map List.length = some 1
    ∧ (getCartesianGridParticles (c8cfg 0) .lum 4).map List.length = some 1
    ∧ img8.data.get? 0 = some 255 ∧ img8.data.get? 12 = some 0 := by
  refine ⟨?_, ?_, rfl, rfl⟩
  · rw [c8cfg_eval 1 le_rfl]
    rfl
  · rw [c8cfg_eval 0 (by norm_num)]
    rfl

/-- C8 (amended): the grid builder never creates a particle at an origin
whose sampled channel intensity is strictly below `dot_size_threshold`, and
raising the threshold can only shrink the particle count; but on a
non-uniform image the count for threshold `1.0` need not be strictly
smaller than for threshold `0.0` — that requires some candidate to sample
an intensity below `1`, which the grid need not hit. -/
theorem C8_threshold_pruning :
    (∀ (c : EngineConfig) (channel : Channel) (angle : ℝ)
        (l : List CreatedParticle) (p : CreatedParticle),
      getCartesianGridParticles c channel angle = some l → p ∈ l →
      c.options.dotSizeThreshold ≤ c.sample p.origin.1 p.origin.2 p.channel)
    ∧ (∀ (c : EngineConfig) (channel : Channel) (angle : ℝ) (t1 t2 : ℝ)
        (l1 l2 : List CreatedParticle), t1 ≤ t2 →
      getCartesianGridParticles
        { c with options := { c.options with dotSizeThreshold := t1 } }
        channel angle = some l1 →
      getCartesianGridParticles
        { c with options := { c.options with dotSizeThreshold := t2 } }
        channel angle = some l2 →
      l2.length ≤ l1.length) := by
  constructor
  · intro c channel angle l p hl hp
    rw [getCartesianGridParticles, Option.map_eq_some'] at hl
    obtain ⟨pts, _, hfm⟩ := hl
    rw [← hfm] at hp
    rw [List.mem_filterMap] at hp
    obtain ⟨pt, _, hpt⟩ := hp
    rw [initParticle] at hpt
    by_cases hcase :
        c.sample pt.1 pt.2 channel < c.options.dotSizeThreshold
    · rw [if_pos hcase] at hpt
      exact absurd hpt (by simp)
    · rw [if_neg hcase] at hpt
      obtain rfl := Option.some.inj hpt
      exact not_lt.mp hcase
  · intro c channel angle t1 t2 l1 l2 ht h1 h2
    rw [getCartesianGridParticles, Option.map_eq_some'] at h1 h2
    obtain ⟨pts1, hc1, hf1⟩ := h1
    obtain ⟨pts2, hc2, hf2⟩ := h2
  -- the sample, grid size and candidates do not depend on the threshold
  -- field, and the per-candidate threshold test reads `t1` resp. `t2`
    have hs1 : ({ c with
        options := { c.options with dotSizeThreshold := t1 } } :
          EngineConfig).sample = c.sample := rfl
    have hs2 : ({ c with
        options := { c.options with dotSizeThreshold := t2 } } :
          EngineConfig).sample = c.sample := rfl
    have hg1 : ({ c with
        options := { c.options with dotSizeThreshold := t1 } } :
          EngineConfig).gridSize = c.gridSize := rfl
    have hg2 : ({ c with
        options := { c.options with dotSizeThreshold := t2 } } :
          EngineConfig).gridSize = c.gridSize := rfl
    have ht1 : ({ c with
        options := { c.options with dotSizeThreshold := t1 } } :
          EngineConfig).options.dotSizeThreshold = t1 := rfl
    have ht2 : ({ c with
        options := { c.options with dotSizeThreshold := t2 } } :
          EngineConfig).options.dotSizeThreshold = t2 := rfl
    simp only [initParticle, hs1, hg1, ht1] at hf1
    simp only [initParticle, hs2, hg2, ht2] at hf2
    have hcands : pts1 = pts2 := by
      have e12 :
          cartesianCandidatePoints
              { c with options := { c.options with dotSizeThreshold := t1 } }
              angle
            = cartesianCandidatePoints
              { c with options := { c.options with dotSizeThreshold := t2 } }
              angle := rfl
      rw [e12, hc2] at hc1
      exact (Option.some.inj hc1).symm
    subst hcands
    rw [← hf1, ← hf2]
    apply length_filterMap_mono
    intro b hb
    by_cases hlt : c.sample b.1 b.2 channel < t1
    · rw [if_pos (lt_of_lt_of_le hlt ht)] at hb
      simp at hb
    · rw [if_neg hlt]
      simp

theorem C8_threshold_pruning_witness :
    (c8cfg 1).options.dotSizeThreshold
      ≤ (c8cfg 1).sample 5 5 Channel.lum :=
  C8_threshold_pruning.1 (c8cfg 1) .lum 4 _
    ⟨.lum, (5, 5), (c8cfg 1).gridSize * Real.sqrt 2 / 2⟩
    (c8cfg_eval 1 le_rfl) (List.mem_singleton.mpr rfl)

end Halftone
